import Mathlib

/-!
Verification of the mbox-to-IMAP migration program (src/mbox_to_imap.py)
against its specification.

The embedding models the transfer pipeline of `main`:
setup checks (archive file present, connection details present, host
resolvable), login, idempotent folder provisioning, the per-record upload
loop with its counters, and the final logout step.  External effects are
represented by explicit environment data: each record carries the result
of its serialization call and the behavior of its append call, and the
date-parsing library chain is a function parameter.
-/

namespace MboxToImap

/-- Lowercase a string, modelling the Python str.lower call (ASCII). -/
def lowerStr (s : String) : String := ⟨s.data.map Char.toLower⟩

/-- True when the first list is an initial segment of the second. -/
def leadsList : List Char → List Char → Bool
  | [], _ => true
  | _ :: _, [] => false
  | a :: as, b :: bs => a == b && leadsList as bs

/-- True when the needle occurs as a contiguous run inside the hay,
modelling the Python membership test on strings. -/
def occursIn (needle : List Char) : List Char → Bool
  | [] => needle.isEmpty
  | c :: rest => leadsList needle (c :: rest) || occursIn needle rest

/-- Model of the source check for the already-exists indication:
the literal text is searched case-insensitively inside the failure text
(lines 137 and 144 of the source). -/
def containsExists (t : String) : Bool :=
  occursIn "exists".data (lowerStr t).data

instance {ε α : Type} [DecidableEq ε] [DecidableEq α] : DecidableEq (Except ε α) := fun a b =>
  match a, b with
  | Except.ok x, Except.ok y =>
      if h : x = y then Decidable.isTrue (h ▸ rfl)
      else Decidable.isFalse (fun hc => h (by injection hc))
  | Except.ok _, Except.error _ => Decidable.isFalse (fun hc => by injection hc)
  | Except.error _, Except.ok _ => Decidable.isFalse (fun hc => by injection hc)
  | Except.error e, Except.error f =>
      if h : e = f then Decidable.isTrue (h ▸ rfl)
      else Decidable.isFalse (fun hc => h (by injection hc))

/-- A raw message record as consumed by the transfer loop: the header map
produced by the archive reader, and the result of the serialization call
producing the exact byte payload (line 164); serialization may raise,
modelled by the error case. -/
structure MsgRecord where
  headers : List (String × String)
  asBytes : Except String (List Nat)
deriving DecidableEq

/-- Case-insensitive header lookup, modelling msg.get of the email
library (first matching header wins). -/
def getHeader (hs : List (String × String)) (k : String) : Option String :=
  (hs.find? (fun p => lowerStr p.fst == lowerStr k)).map Prod.snd

/-- Model of get_message_date (source lines 64-78): read the Date header;
a missing or empty value yields none; otherwise the whole conversion
chain (parsedate_to_datetime, timetuple, mktime, Time2Internaldate) is
run inside a try block, modelled by the conv parameter, and any fault
yields none instead of propagating. -/
def get_message_date (conv : String → Except Unit Int) (msg : MsgRecord) : Option Int :=
  match getHeader msg.headers "Date" with
  | none => none
  | some s =>
    if s = "" then none
    else
      match conv s with
      | Except.ok t => some t
      | Except.error _ => none

/-- Behavior of one append call on the session: an OK status response, a
non-OK status response carrying the server payload, or an exception
raised by the call itself. -/
inductive AppendResult where
  | okStatus : AppendResult
  | noStatus : String → AppendResult
  | exnRaised : String → AppendResult
deriving DecidableEq

/-- One record of the run together with the behavior its append call
would exhibit. -/
structure RecStep where
  msg : MsgRecord
  appendResult : AppendResult
deriving DecidableEq

/-- Pacing constant of the source (line 29), in seconds. -/
def UPLOAD_DELAY_SECONDS : Rat := 1 / 10

/-- Observable outcome of one iteration of the upload loop: the append
invocation issued (payload bytes and internal date), the increments to
the two counters, and the pacing delay applied after the attempt. -/
structure StepResult where
  invocation : Option (List Nat × Option Int)
  okInc : Nat
  errInc : Nat
  delay : Option Rat
deriving DecidableEq

/-- Model of one iteration of the loop body (source lines 160-190).
A serialization fault is caught by the per-item handler: no append is
issued, error_count is incremented, and the delay is skipped because the
sleep sits inside the try block.  Otherwise the append is issued with the
exact serialized bytes and the normalized date; an OK status increments
uploaded_count and sleeps, a non-OK status increments error_count and
sleeps, and a raised exception is caught by the per-item handler, which
increments error_count without reaching the sleep. -/
def processRecord (conv : String → Except Unit Int) (s : RecStep) : StepResult :=
  match s.msg.asBytes with
  | Except.error _ => ⟨none, 0, 1, none⟩
  | Except.ok bytes =>
    let date := get_message_date conv s.msg
    match s.appendResult with
    | AppendResult.okStatus => ⟨some (bytes, date), 1, 0, some UPLOAD_DELAY_SECONDS⟩
    | AppendResult.noStatus _ => ⟨some (bytes, date), 0, 1, some UPLOAD_DELAY_SECONDS⟩
    | AppendResult.exnRaised _ => ⟨some (bytes, date), 0, 1, none⟩

/-- State accumulated by the upload loop: the two counters of the source
(lines 106-107) and the ordered trace of append invocations issued. -/
structure RunState where
  uploaded_count : Nat
  error_count : Nat
  trace : List (List Nat × Option Int)
deriving DecidableEq

/-- One loop iteration applied to the accumulated state. -/
def stepState (conv : String → Except Unit Int) (st : RunState) (s : RecStep) : RunState :=
  let r := processRecord conv s
  ⟨st.uploaded_count + r.okInc, st.error_count + r.errInc, st.trace ++ r.invocation.toList⟩

/-- The per-record upload loop (source lines 160-190), strictly
sequential over the records in source order. -/
def runLoop (conv : String → Except Unit Int) (steps : List RecStep) : RunState :=
  steps.foldl (stepState conv) ⟨0, 0, []⟩

/-- Behavior of the login call (source lines 119-128): an OK status, a
non-OK status carrying the server data, or a raised IMAP error. -/
inductive LoginResult where
  | okStatus : LoginResult
  | notOkStatus : String → LoginResult
  | imapError : String → LoginResult
deriving DecidableEq

/-- Behavior of the folder create call (source lines 132-148): an OK
status, a non-OK status carrying the server failure text, or an IMAP
error raised by the call itself. -/
inductive CreateResult where
  | okStatus : CreateResult
  | noStatus : String → CreateResult
  | exnRaised : String → CreateResult
deriving DecidableEq

/-- Model of the provisioning outcome (source lines 132-148): an OK
status means the folder was created; a non-OK status or a raised error
whose text contains the already-exists indication (case-insensitive) is
treated as success; any other outcome is fatal. -/
def ensureReady : CreateResult → Bool
  | CreateResult.okStatus => true
  | CreateResult.noStatus d => containsExists d
  | CreateResult.exnRaised m => containsExists m

/-- Environment of one run of main: whether the archive file exists,
whether all connection details were supplied, whether the host resolves,
the login and create behaviors, the records with their append behaviors,
and whether the logout call raises. -/
structure Env where
  mboxExists : Bool
  detailsPresent : Bool
  hostResolvable : Bool
  loginResult : LoginResult
  createResult : CreateResult
  steps : List RecStep
  logoutFails : Bool
deriving DecidableEq

/-- Observable outcome of one run of main: the process exit status, the
final counters and the archive size, the ordered trace of append
invocations, whether a session was established, whether the logout call
was attempted in the cleanup step, and whether a logout error was merely
logged. -/
structure MainResult where
  exitCode : Nat
  total_messages : Nat
  uploaded_count : Nat
  error_count : Nat
  trace : List (List Nat × Option Int)
  sessionEstablished : Bool
  logoutAttempted : Bool
  logoutErrorLogged : Bool
deriving DecidableEq

/-- Model of main (source lines 80-217).  A missing archive file or
missing connection details call sys.exit before the session is opened.
A connection failure raises a resolver error that the outer handler at
line 199 catches and only prints, so the run falls through to the
cleanup step with no session and the process exits with status zero.
A login failure or a fatal provisioning failure calls sys.exit inside
the try block; the resulting SystemExit passes through the finally
block, where the logout call is attempted on the open session, so the
process exits with status one after attempting logout.  On the normal
path the upload loop runs to completion and the process exits with
status zero; an error raised by the logout call itself is caught and
logged without changing anything else. -/
def main (conv : String → Except Unit Int) (env : Env) : MainResult :=
  if !env.mboxExists then ⟨1, 0, 0, 0, [], false, false, false⟩
  else if !env.detailsPresent then ⟨1, 0, 0, 0, [], false, false, false⟩
  else if !env.hostResolvable then ⟨0, 0, 0, 0, [], false, false, false⟩
  else
    match env.loginResult with
    | LoginResult.okStatus =>
      if ensureReady env.createResult then
        let st := runLoop conv env.steps
        ⟨0, env.steps.length, st.uploaded_count, st.error_count, st.trace,
          true, true, env.logoutFails⟩
      else ⟨1, 0, 0, 0, [], true, true, env.logoutFails⟩
    | LoginResult.notOkStatus _ => ⟨1, 0, 0, 0, [], true, true, env.logoutFails⟩
    | LoginResult.imapError _ => ⟨1, 0, 0, 0, [], true, true, env.logoutFails⟩

/-- Replace only the logout behavior of an environment. -/
def setLogoutFails (env : Env) (b : Bool) : Env :=
  ⟨env.mboxExists, env.detailsPresent, env.hostResolvable, env.loginResult,
    env.createResult, env.steps, b⟩

/-! ### Loop lemmas -/

/-- Running the loop from an arbitrary accumulated state decomposes into
that state combined with the run from the initial state. -/
theorem foldl_stepState (conv : String → Except Unit Int) (steps : List RecStep)
    (st : RunState) :
    List.foldl (stepState conv) st steps =
      ⟨st.uploaded_count + (runLoop conv steps).uploaded_count,
       st.error_count + (runLoop conv steps).error_count,
       st.trace ++ (runLoop conv steps).trace⟩ := by
  induction steps generalizing st with
  | nil =>
      cases st
      simp [runLoop]
  | cons s ss ih =>
      have hL : List.foldl (stepState conv) st (s :: ss)
          = List.foldl (stepState conv) (stepState conv st s) ss := rfl
      have hR : runLoop conv (s :: ss)
          = List.foldl (stepState conv) (stepState conv ⟨0, 0, []⟩ s) ss := rfl
      rw [hL, ih (stepState conv st s), hR, ih (stepState conv ⟨0, 0, []⟩ s)]
      simp [stepState, Nat.add_assoc, List.append_assoc]

/-- The loop distributes over list concatenation. -/
theorem runLoop_append (conv : String → Except Unit Int) (a b : List RecStep) :
    runLoop conv (a ++ b) =
      ⟨(runLoop conv a).uploaded_count + (runLoop conv b).uploaded_count,
       (runLoop conv a).error_count + (runLoop conv b).error_count,
       (runLoop conv a).trace ++ (runLoop conv b).trace⟩ := by
  have h : runLoop conv (a ++ b) = List.foldl (stepState conv) (runLoop conv a) b := by
    simp only [runLoop, List.foldl_append]
  rw [h, foldl_stepState]

/-- Unfolding one iteration of the loop. -/
theorem runLoop_cons (conv : String → Except Unit Int) (s : RecStep) (ss : List RecStep) :
    runLoop conv (s :: ss) =
      ⟨(processRecord conv s).okInc + (runLoop conv ss).uploaded_count,
       (processRecord conv s).errInc + (runLoop conv ss).error_count,
       (processRecord conv s).invocation.toList ++ (runLoop conv ss).trace⟩ := by
  have h : runLoop conv (s :: ss)
      = List.foldl (stepState conv) (stepState conv ⟨0, 0, []⟩ s) ss := rfl
  rw [h, foldl_stepState]
  simp [stepState]

/-- Each iteration increments exactly one of the two counters. -/
theorem processRecord_inc (conv : String → Except Unit Int) (s : RecStep) :
    (processRecord conv s).okInc + (processRecord conv s).errInc = 1 := by
  obtain ⟨⟨hd, ab⟩, ar⟩ := s
  cases ab <;> cases ar <;> rfl

/-- After the whole loop the two counters sum to the number of records. -/
theorem runLoop_sum (conv : String → Except Unit Int) (steps : List RecStep) :
    (runLoop conv steps).uploaded_count + (runLoop conv steps).error_count
      = steps.length := by
  induction steps with
  | nil => rfl
  | cons s ss ih =>
      rw [runLoop_cons]
      have h := processRecord_inc conv s
      simp only [List.length_cons]
      omega

/-- The trace of the loop is precisely the ordered sequence of append
invocations of its records. -/
theorem runLoop_trace (conv : String → Except Unit Int) (steps : List RecStep) :
    (runLoop conv steps).trace
      = steps.filterMap (fun s => (processRecord conv s).invocation) := by
  induction steps with
  | nil => rfl
  | cons s ss ih =>
      rw [runLoop_cons, List.filterMap_cons]
      cases h : (processRecord conv s).invocation <;> simp [ih, h]

/-- The append invocation of a record carries exactly the serialized
bytes when serialization succeeds, and is absent when it raises. -/
theorem invocation_eq (conv : String → Except Unit Int) (s : RecStep) :
    (processRecord conv s).invocation
      = (s.msg.asBytes.toOption).map (fun b => (b, get_message_date conv s.msg)) := by
  obtain ⟨⟨hd, ab⟩, ar⟩ := s
  cases ab <;> cases ar <;> rfl

/-- The serialized payload of a record whose serialization succeeds. -/
def payloadBytes (s : RecStep) : List Nat :=
  match s.msg.asBytes with
  | Except.ok b => b
  | Except.error _ => []

/-! ### Concrete fixtures used by the witnesses -/

def cconv : String → Except Unit Int := fun _ => Except.error ()

def msgA : MsgRecord := ⟨[("Date", "not a real date")], Except.ok [104, 105]⟩

def stepOk : RecStep := ⟨msgA, AppendResult.okStatus⟩

def stepFail : RecStep := ⟨msgA, AppendResult.noStatus "NO quota"⟩

def stepExn : RecStep := ⟨msgA, AppendResult.exnRaised "socket closed"⟩

def stepPrepFail : RecStep := ⟨⟨[], Except.error "serialization fault"⟩, AppendResult.okStatus⟩

def envConnFail : Env :=
  ⟨true, true, false, LoginResult.okStatus, CreateResult.okStatus, [], false⟩

def envMboxMissing : Env :=
  ⟨false, true, true, LoginResult.okStatus, CreateResult.okStatus, [], false⟩

def envLoginFail : Env :=
  ⟨true, true, true, LoginResult.imapError "auth rejected", CreateResult.okStatus, [], false⟩

def envCreateFail : Env :=
  ⟨true, true, true, LoginResult.okStatus,
    CreateResult.noStatus "can not create folder: permission denied", [], false⟩

def envAlreadyExists : Env :=
  ⟨true, true, true, LoginResult.okStatus,
    CreateResult.noStatus "[ALREADYEXISTS] Mailbox already exists", [stepOk], false⟩

def envGood : Env :=
  ⟨true, true, true, LoginResult.okStatus, CreateResult.okStatus, [stepOk, stepFail], false⟩

/-! ### Claims about the upload loop -/

/-- Claim C1: over the per-record loop both counters are monotonically
non-decreasing, at every point uploaded_count plus error_count is at
most the archive size fixed before the loop, and when the loop completes
the two counters sum exactly to the archive size. -/
theorem counters_invariant (conv : String → Except Unit Int) (steps : List RecStep) :
    (∀ k : Nat,
        (runLoop conv (steps.take k)).uploaded_count
            ≤ (runLoop conv (steps.take (k + 1))).uploaded_count ∧
        (runLoop conv (steps.take k)).error_count
            ≤ (runLoop conv (steps.take (k + 1))).error_count ∧
        (runLoop conv (steps.take k)).uploaded_count
            + (runLoop conv (steps.take k)).error_count ≤ steps.length) ∧
    (runLoop conv steps).uploaded_count + (runLoop conv steps).error_count
      = steps.length := by
  refine ⟨fun k => ?_, runLoop_sum conv steps⟩
  have ht : steps.take (k + 1) = steps.take k ++ (steps.drop k).take 1 :=
    List.take_add steps k 1
  have hsum := runLoop_sum conv (steps.take k)
  have hlen := List.length_take k steps
  rw [ht, runLoop_append]
  exact ⟨Nat.le_add_right _ _, Nat.le_add_right _ _, by omega⟩

/-- Claim C2: a per-item failure, a non-OK append response or an
exception raised by the append call, increments error_count by one and
leaves the processing of all later records exactly as it would have
been, so appends after the failing record are still attempted. -/
theorem per_item_failure_isolated (conv : String → Except Unit Int)
    (pre post : List RecStep) (s : RecStep) (b : List Nat)
    (hb : s.msg.asBytes = Except.ok b)
    (hf : (∃ d, s.appendResult = AppendResult.noStatus d)
        ∨ (∃ m, s.appendResult = AppendResult.exnRaised m)) :
    (runLoop conv (pre ++ s :: post)).error_count
        = (runLoop conv pre).error_count + 1 + (runLoop conv post).error_count ∧
    (runLoop conv (pre ++ s :: post)).uploaded_count
        = (runLoop conv pre).uploaded_count + (runLoop conv post).uploaded_count ∧
    (runLoop conv (pre ++ s :: post)).trace
        = (runLoop conv pre).trace
            ++ (b, get_message_date conv s.msg) :: (runLoop conv post).trace := by
  have hok : (processRecord conv s).okInc = 0 ∧ (processRecord conv s).errInc = 1
      ∧ (processRecord conv s).invocation = some (b, get_message_date conv s.msg) := by
    rcases hf with ⟨d, hd⟩ | ⟨m, hm⟩
    · simp [processRecord, hb, hd]
    · simp [processRecord, hb, hm]
  rw [runLoop_append, runLoop_cons, hok.1, hok.2.1, hok.2.2]
  refine ⟨by simp; omega, by simp, by simp⟩

/-- Claim C6: every byte payload handed to the append primitive is
exactly the serialized payload of its record, with no transformation
between the reader and the append call. -/
theorem payload_bytes_exact (conv : String → Except Unit Int) (steps : List RecStep) :
    ((runLoop conv steps).trace).map Prod.fst
      = steps.filterMap (fun s => s.msg.asBytes.toOption) := by
  induction steps with
  | nil => rfl
  | cons s ss ih =>
      have hinv := invocation_eq conv s
      rw [runLoop_cons, List.filterMap_cons, List.map_append]
      cases hab : s.msg.asBytes with
      | ok b => simp [hinv, hab, Except.toOption, ih]
      | error e => simp [hinv, hab, Except.toOption, ih]

/-- Claim C7: the sequence of append invocations issued to the session
is exactly the source sequence of records in its original order, one
invocation per record, with no reordering. -/
theorem appends_in_source_order (conv : String → Except Unit Int) (steps : List RecStep)
    (hp : ∀ s ∈ steps, ∃ b, s.msg.asBytes = Except.ok b) :
    (runLoop conv steps).trace
      = steps.map (fun s => (payloadBytes s, get_message_date conv s.msg)) := by
  induction steps with
  | nil => rfl
  | cons s ss ih =>
      obtain ⟨b, hb⟩ := hp s (List.mem_cons_self s ss)
      have hinv := invocation_eq conv s
      rw [runLoop_cons, List.map_cons]
      simp [hinv, hb, Except.toOption, payloadBytes,
        ih (fun t ht => hp t (List.mem_cons_of_mem s ht))]

/-- Claim C10: an exception raised while preparing a record before the
append call, here the serialization step, is contained by the per-item
handler: error_count is incremented by one, no append is issued for the
record, and the later records are processed exactly as they would have
been. -/
theorem prep_fault_contained (conv : String → Except Unit Int)
    (pre post : List RecStep) (s : RecStep) (e : String)
    (hb : s.msg.asBytes = Except.error e) :
    (runLoop conv (pre ++ s :: post)).error_count
        = (runLoop conv pre).error_count + 1 + (runLoop conv post).error_count ∧
    (runLoop conv (pre ++ s :: post)).uploaded_count
        = (runLoop conv pre).uploaded_count + (runLoop conv post).uploaded_count ∧
    (runLoop conv (pre ++ s :: post)).trace
        = (runLoop conv pre).trace ++ (runLoop conv post).trace ∧
    (processRecord conv s).invocation = none ∧
    (processRecord conv s).errInc = 1 := by
  have hok : (processRecord conv s).okInc = 0 ∧ (processRecord conv s).errInc = 1
      ∧ (processRecord conv s).invocation = none := by
    simp [processRecord, hb]
  rw [runLoop_append, runLoop_cons, hok.1, hok.2.1, hok.2.2]
  exact ⟨by simp; omega, by simp, by simp, rfl, rfl⟩

/-- Claim C3: when the Date header is absent or its value fails to
parse, get_message_date returns none without raising, the record is
still submitted to the append primitive with no date argument, and a
successful append still counts the record as uploaded. -/
theorem unparseable_date_still_uploaded (conv : String → Except Unit Int)
    (s : RecStep) (b : List Nat)
    (hb : s.msg.asBytes = Except.ok b)
    (hd : getHeader s.msg.headers "Date" = none ∨
          ∀ str, getHeader s.msg.headers "Date" = some str → conv str = Except.error ()) :
    get_message_date conv s.msg = none ∧
    (processRecord conv s).invocation = some (b, none) ∧
    (s.appendResult = AppendResult.okStatus →
        (processRecord conv s).okInc = 1 ∧ (processRecord conv s).errInc = 0) := by
  have hg : get_message_date conv s.msg = none := by
    unfold get_message_date
    cases hgd : getHeader s.msg.headers "Date" with
    | none => rfl
    | some str =>
        rcases hd with h | h
        · rw [h] at hgd
          exact Option.noConfusion hgd
        · have hc := h str hgd
          by_cases he : str = ""
          · simp [he]
          · simp [he, hc]
  refine ⟨hg, ?_, fun ha => ?_⟩
  · rw [invocation_eq, hb, hg]
    rfl
  · constructor <;> simp [processRecord, hb, ha]

/-- Claim C4: provisioning reports the folder ready exactly when the
create call returns an OK status or the failure text contains the
already-exists indication as a case-insensitive substring; any other
create failure aborts the run with a non-zero status before any append
is attempted. -/
theorem provisioning_ready_iff (conv : String → Except Unit Int) (env : Env)
    (hm : env.mboxExists = true) (hdp : env.detailsPresent = true)
    (hh : env.hostResolvable = true) (hl : env.loginResult = LoginResult.okStatus) :
    (ensureReady env.createResult = true ↔
        env.createResult = CreateResult.okStatus ∨
          ∃ t, (env.createResult = CreateResult.noStatus t
                ∨ env.createResult = CreateResult.exnRaised t)
            ∧ containsExists t = true) ∧
    (ensureReady env.createResult = false →
        (main conv env).exitCode = 1 ∧ (main conv env).trace = [] ∧
        (main conv env).uploaded_count = 0 ∧ (main conv env).error_count = 0) := by
  constructor
  · cases hc : env.createResult <;> simp [ensureReady]
  · intro hfail
    simp [main, hm, hdp, hh, hl, hfail]

/-- Claim C5 counterexample: an unresolvable host is a connection
failure, yet the resolver error is caught by the outer handler that only
prints it, so the process finishes with exit status zero, not the
non-zero status the claim requires. -/
theorem conn_failure_exits_zero :
    envConnFail.hostResolvable = false ∧
    (main cconv envConnFail).exitCode = 0 ∧
    (main cconv envConnFail).trace = [] ∧
    (main cconv envConnFail).uploaded_count = 0 ∧
    (main cconv envConnFail).error_count = 0 :=
  ⟨rfl, rfl, rfl, rfl, rfl⟩

/-- Claim C5 as amended: configuration errors, authentication failures
and non-idempotent provisioning failures exit with a non-zero status
before any append is attempted, with both counters zero; a connection
failure also aborts before any append with zero counters but the
process exits with status zero; per-item failures never change the exit
status of a run that reached the upload loop. -/
theorem exit_paths_amended (conv : String → Except Unit Int) (env : Env) :
    (env.mboxExists = false →
        (main conv env).exitCode = 1 ∧ (main conv env).trace = [] ∧
        (main conv env).uploaded_count = 0 ∧ (main conv env).error_count = 0) ∧
    (env.mboxExists = true → env.detailsPresent = false →
        (main conv env).exitCode = 1 ∧ (main conv env).trace = [] ∧
        (main conv env).uploaded_count = 0 ∧ (main conv env).error_count = 0) ∧
    (env.mboxExists = true → env.detailsPresent = true → env.hostResolvable = false →
        (main conv env).exitCode = 0 ∧ (main conv env).trace = [] ∧
        (main conv env).uploaded_count = 0 ∧ (main conv env).error_count = 0) ∧
    (env.mboxExists = true → env.detailsPresent = true → env.hostResolvable = true →
        (∀ d, env.loginResult = LoginResult.notOkStatus d →
            (main conv env).exitCode = 1 ∧ (main conv env).trace = [] ∧
            (main conv env).uploaded_count = 0 ∧ (main conv env).error_count = 0) ∧
        (∀ m, env.loginResult = LoginResult.imapError m →
            (main conv env).exitCode = 1 ∧ (main conv env).trace = [] ∧
            (main conv env).uploaded_count = 0 ∧ (main conv env).error_count = 0) ∧
        (env.loginResult = LoginResult.okStatus → ensureReady env.createResult = false →
            (main conv env).exitCode = 1 ∧ (main conv env).trace = [] ∧
            (main conv env).uploaded_count = 0 ∧ (main conv env).error_count = 0) ∧
        (env.loginResult = LoginResult.okStatus → ensureReady env.createResult = true →
            (main conv env).exitCode = 0)) := by
  refine ⟨fun h1 => ?_, fun h1 h2 => ?_, fun h1 h2 h3 => ?_,
    fun h1 h2 h3 => ⟨fun d hd => ?_, fun m hm2 => ?_, fun hl hc => ?_, fun hl hc => ?_⟩⟩ <;>
  simp [main, *]

/-- Claim C8 counterexample: a record whose append call raises an
exception is an attempt that failed, yet control jumps to the per-item
handler before the sleep call is reached, so no pacing delay is applied
after that attempt. -/
theorem pacing_skipped_on_exception :
    ((processRecord cconv stepExn).invocation).isSome = true ∧
    (processRecord cconv stepExn).delay = none :=
  ⟨rfl, rfl⟩

/-- Claim C8 as amended: after an append attempt that completes without
raising, whether an OK status or a non-OK status, the fixed pacing delay
of UPLOAD_DELAY_SECONDS is applied before the next record; an attempt
that raises an exception skips the delay for that record because the
sleep call sits inside the try block. -/
theorem pacing_amended (conv : String → Except Unit Int) (s : RecStep) (b : List Nat)
    (hb : s.msg.asBytes = Except.ok b) :
    ((s.appendResult = AppendResult.okStatus
        ∨ ∃ d, s.appendResult = AppendResult.noStatus d) →
        (processRecord conv s).delay = some UPLOAD_DELAY_SECONDS) ∧
    (∀ m, s.appendResult = AppendResult.exnRaised m →
        (processRecord conv s).delay = none) := by
  constructor
  · rintro (h | ⟨d, h⟩) <;> simp [processRecord, hb, h]
  · intro m h
    simp [processRecord, hb, h]

/-- Claim C9: on every exit path in which a session was established the
logout call is attempted in the cleanup step, and an error raised by the
logout call changes neither the reported counters nor the exit status of
the run. -/
theorem logout_always_attempted (conv : String → Except Unit Int) (env : Env) (b : Bool) :
    ((main conv env).sessionEstablished = true →
        (main conv env).logoutAttempted = true) ∧
    (main conv (setLogoutFails env b)).exitCode = (main conv env).exitCode ∧
    (main conv (setLogoutFails env b)).total_messages = (main conv env).total_messages ∧
    (main conv (setLogoutFails env b)).uploaded_count = (main conv env).uploaded_count ∧
    (main conv (setLogoutFails env b)).error_count = (main conv env).error_count ∧
    (main conv (setLogoutFails env b)).trace = (main conv env).trace := by
  obtain ⟨m, dp, h, l, c, steps, lf⟩ := env
  by_cases hc : ensureReady c <;>
    cases m <;> cases dp <;> cases h <;> cases l <;>
      simp [main, setLogoutFails, hc]

/-! ### Witnesses -/

/-- Witness for claim C2 at a concrete three-record run whose middle
record receives a non-OK append response. -/
theorem per_item_failure_isolated_witness :
    (runLoop cconv ([stepOk] ++ stepFail :: [stepOk])).error_count
        = (runLoop cconv [stepOk]).error_count + 1 + (runLoop cconv [stepOk]).error_count ∧
    (runLoop cconv ([stepOk] ++ stepFail :: [stepOk])).uploaded_count
        = (runLoop cconv [stepOk]).uploaded_count + (runLoop cconv [stepOk]).uploaded_count ∧
    (runLoop cconv ([stepOk] ++ stepFail :: [stepOk])).trace
        = (runLoop cconv [stepOk]).trace
            ++ ([104, 105], get_message_date cconv stepFail.msg)
              :: (runLoop cconv [stepOk]).trace :=
  per_item_failure_isolated cconv [stepOk] [stepOk] stepFail [104, 105] rfl
    (Or.inl ⟨"NO quota", rfl⟩)

/-- Witness for claim C3 at a concrete record whose Date header does not
parse. -/
theorem unparseable_date_still_uploaded_witness :
    get_message_date cconv stepOk.msg = none ∧
    (processRecord cconv stepOk).invocation = some ([104, 105], none) ∧
    (stepOk.appendResult = AppendResult.okStatus →
        (processRecord cconv stepOk).okInc = 1 ∧ (processRecord cconv stepOk).errInc = 0) :=
  unparseable_date_still_uploaded cconv stepOk [104, 105] rfl
    (Or.inr (fun _ _ => rfl))

/-- Witness for claim C4 at a concrete fatal create failure and at a
concrete already-exists response. -/
theorem provisioning_ready_iff_witness :
    ((ensureReady envCreateFail.createResult = true ↔
        envCreateFail.createResult = CreateResult.okStatus ∨
          ∃ t, (envCreateFail.createResult = CreateResult.noStatus t
                ∨ envCreateFail.createResult = CreateResult.exnRaised t)
            ∧ containsExists t = true) ∧
      (main cconv envCreateFail).exitCode = 1 ∧ (main cconv envCreateFail).trace = [] ∧
      (main cconv envCreateFail).uploaded_count = 0 ∧
      (main cconv envCreateFail).error_count = 0) ∧
    ensureReady envAlreadyExists.createResult = true :=
  ⟨⟨(provisioning_ready_iff cconv envCreateFail rfl rfl rfl rfl).1,
    (provisioning_ready_iff cconv envCreateFail rfl rfl rfl rfl).2 (by decide)⟩,
   ((provisioning_ready_iff cconv envAlreadyExists rfl rfl rfl rfl).1).mpr
     (Or.inr ⟨"[ALREADYEXISTS] Mailbox already exists", Or.inl rfl, by decide⟩)⟩

/-- Witness for the amended claim C5 at concrete environments covering a
missing archive, a connection failure, an authentication failure, a
fatal provisioning failure, and a run with a per-item failure. -/
theorem exit_paths_amended_witness :
    (main cconv envMboxMissing).exitCode = 1 ∧
    (main cconv envConnFail).exitCode = 0 ∧
    (main cconv envLoginFail).exitCode = 1 ∧
    (main cconv envLoginFail).uploaded_count = 0 ∧
    (main cconv envLoginFail).error_count = 0 ∧
    (main cconv envCreateFail).exitCode = 1 ∧
    (main cconv envGood).exitCode = 0 :=
  ⟨((exit_paths_amended cconv envMboxMissing).1 rfl).1,
   ((exit_paths_amended cconv envConnFail).2.2.1 rfl rfl rfl).1,
   (((exit_paths_amended cconv envLoginFail).2.2.2 rfl rfl rfl).2.1 "auth rejected" rfl).1,
   (((exit_paths_amended cconv envLoginFail).2.2.2 rfl rfl rfl).2.1 "auth rejected" rfl).2.2.1,
   (((exit_paths_amended cconv envLoginFail).2.2.2 rfl rfl rfl).2.1 "auth rejected" rfl).2.2.2,
   (((exit_paths_amended cconv envCreateFail).2.2.2 rfl rfl rfl).2.2.1 rfl (by decide)).1,
   (((exit_paths_amended cconv envGood).2.2.2 rfl rfl rfl).2.2.2 rfl rfl)⟩

/-- Witness for claim C7 at a concrete two-record run. -/
theorem appends_in_source_order_witness :
    (runLoop cconv [stepOk, stepFail]).trace
      = [stepOk, stepFail].map (fun s => (payloadBytes s, get_message_date cconv s.msg)) :=
  appends_in_source_order cconv [stepOk, stepFail] (by
    intro s hs
    fin_cases hs <;> exact ⟨[104, 105], rfl⟩)

/-- Witness for the amended claim C8 at a concrete successful attempt
and a concrete attempt that raises. -/
theorem pacing_amended_witness :
    (processRecord cconv stepOk).delay = some UPLOAD_DELAY_SECONDS ∧
    (processRecord cconv stepExn).delay = none :=
  ⟨(pacing_amended cconv stepOk [104, 105] rfl).1 (Or.inl rfl),
   (pacing_amended cconv stepExn [104, 105] rfl).2 "socket closed" rfl⟩

/-- Witness for claim C9 at a concrete normal run with a failing logout
call. -/
theorem logout_always_attempted_witness :
    (main cconv envGood).sessionEstablished = true ∧
    (main cconv envGood).logoutAttempted = true ∧
    (main cconv (setLogoutFails envGood true)).exitCode = (main cconv envGood).exitCode :=
  ⟨rfl, (logout_always_attempted cconv envGood true).1 rfl,
   (logout_always_attempted cconv envGood true).2.1⟩

/-- Witness for claim C10 at a concrete three-record run whose middle
record fails to serialize. -/
theorem prep_fault_contained_witness :
    (runLoop cconv ([stepOk] ++ stepPrepFail :: [stepOk])).error_count
        = (runLoop cconv [stepOk]).error_count + 1 + (runLoop cconv [stepOk]).error_count ∧
    (runLoop cconv ([stepOk] ++ stepPrepFail :: [stepOk])).uploaded_count
        = (runLoop cconv [stepOk]).uploaded_count + (runLoop cconv [stepOk]).uploaded_count ∧
    (runLoop cconv ([stepOk] ++ stepPrepFail :: [stepOk])).trace
        = (runLoop cconv [stepOk]).trace ++ (runLoop cconv [stepOk]).trace ∧
    (processRecord cconv stepPrepFail).invocation = none ∧
    (processRecord cconv stepPrepFail).errInc = 1 :=
  prep_fault_contained cconv [stepOk] [stepOk] stepPrepFail "serialization fault" rfl

end MboxToImap
